import Mathlib

/-!
# Verification of the PromAI inspection core

A shallow embedding, in Lean 4, of the correctness-sensitive parts of the
PromAI repository: the threshold classifier (`getStatus`), the metrics
collection pipeline (`CollectMetrics` / `validateMetricData`), the alert
summary aggregators (`CalculateAlertSummary` / `CalculateTypeAlertSummary`),
and the task registry (`taskmanager`).

Modelling conventions:
* Go `float64` metric values are modelled as exact rationals `ℚ`; the
  special values NaN / ±Inf are modelled by the sum type `SampleValue`,
  mirroring the `math.IsNaN || math.IsInf` guard in the collector.
* Go maps are modelled as association lists (`List (String × _)`); Go
  guarantees their keys unique.
* `time.Now()` stamps are modelled by an explicit `now : Nat` argument to
  each registry operation; timestamp fields irrelevant to the claims
  (e.g. `MetricData.Timestamp`, `ReportData.Timestamp`) are omitted.
-/

/-! ## Threshold classifier (`pkg/metrics`, `getStatus`) -/

/-- Embedding of `getStatus(value, threshold, thresholdType, thresholdStatus)`
from the metrics collector: defaults the comparison type to `"greater"` and
the triggered status to `"critical"`, evaluates the primary comparison, then
the 0.9 / 0.2 warning band, then the default-status inversion. -/
def getStatus (value threshold : ℚ) (thresholdType thresholdStatus : String) : String :=
  let ty := if thresholdType = "" then "greater" else thresholdType
  let st := if thresholdStatus = "" then "critical" else thresholdStatus
  let triggered : Bool :=
    if ty = "greater" then decide (value > threshold)
    else if ty = "greater_equal" then decide (value ≥ threshold)
    else if ty = "less" then decide (value < threshold)
    else if ty = "less_equal" then decide (value ≤ threshold)
    else if ty = "equal" then decide (value = threshold)
    else false
  if triggered then st
  else
    let warningTriggered : Bool :=
      if ty = "greater" then decide (value ≥ threshold * (9/10))
      else if ty = "greater_equal" then decide (value ≥ threshold * (9/10))
      else if ty = "less" then decide (value ≤ threshold * (9/10))
      else if ty = "less_equal" then decide (value ≤ threshold * (9/10))
      else if ty = "equal" then decide (|value - threshold| ≤ threshold * (1/5))
      else false
    if warningTriggered then "warning"
    else if st = "critical" then "normal" else "critical"

/-- Modelled from the spec: `report.GetStatusText` (the `pkg/report` package is
not part of the analysed sources); maps a status tag to its display text.  No
claim constrains the exact mapping. -/
def GetStatusText (status : String) : String :=
  if status = "critical" then "严重"
  else if status = "warning" then "警告"
  else if status = "normal" then "正常"
  else status

/-- Unfolding of `getStatus` for comparison type `"greater"` and a non-empty
triggered status. -/
theorem getStatus_greater (v T : ℚ) (st : String) (hst : st ≠ "") :
    getStatus v T "greater" st =
      if v > T then st
      else if v ≥ T * (9/10) then "warning"
      else if st = "critical" then "normal" else "critical" := by
  simp only [getStatus, String.reduceEq, reduceIte, decide_eq_true_eq, if_neg hst]

/-- Claim C1: for comparison type `"greater"` and triggered status
`"critical"`, with threshold `T > 0`: the classifier returns `"critical"`
when `value > T`, `"warning"` when `0.9·T ≤ value ≤ T`, `"normal"` when
`value < 0.9·T`; in particular at `1.1·T`, `0.95·T` and `0.5·T`. -/
theorem classify_greater_critical_bands (T v : ℚ) (hT : 0 < T) :
    (T < v → getStatus v T "greater" "critical" = "critical") ∧
    (9/10 * T ≤ v → v ≤ T → getStatus v T "greater" "critical" = "warning") ∧
    (v < 9/10 * T → getStatus v T "greater" "critical" = "normal") ∧
    getStatus (11/10 * T) T "greater" "critical" = "critical" ∧
    getStatus (19/20 * T) T "greater" "critical" = "warning" ∧
    getStatus (1/2 * T) T "greater" "critical" = "normal" := by
  have hne : ("critical" : String) ≠ "" := by decide
  refine ⟨?_, ?_, ?_, ?_, ?_, ?_⟩
  · intro h
    rw [getStatus_greater v T "critical" hne, if_pos h]
  · intro h1 h2
    rw [getStatus_greater v T "critical" hne, if_neg (by linarith),
      if_pos (by linarith)]
  · intro h
    rw [getStatus_greater v T "critical" hne, if_neg (by linarith),
      if_neg (by linarith), if_pos rfl]
  · rw [getStatus_greater _ T "critical" hne, if_pos (by linarith)]
  · rw [getStatus_greater _ T "critical" hne, if_neg (by linarith),
      if_pos (by linarith)]
  · rw [getStatus_greater _ T "critical" hne, if_neg (by linarith),
      if_neg (by linarith), if_pos rfl]

/-- Witness for C1 at `T = 2`, `v = 3`. -/
theorem classify_greater_critical_bands_witness :
    (0 : ℚ) < 2 ∧
    ((2 : ℚ) < 3 → getStatus 3 2 "greater" "critical" = "critical") ∧
    (9/10 * 2 ≤ (3 : ℚ) → (3 : ℚ) ≤ 2 → getStatus 3 2 "greater" "critical" = "warning") ∧
    ((3 : ℚ) < 9/10 * 2 → getStatus 3 2 "greater" "critical" = "normal") ∧
    getStatus (11/10 * 2) 2 "greater" "critical" = "critical" ∧
    getStatus (19/20 * 2) 2 "greater" "critical" = "warning" ∧
    getStatus (1/2 * 2) 2 "greater" "critical" = "normal" :=
  ⟨by norm_num, classify_greater_critical_bands 2 3 (by norm_num)⟩

/-- Counterexample to claim C2: at `T = 1`, `classify(T, T, "greater", "ok")`
returns `"warning"` (the warning band `T ≥ 0.9·T` fires), not `"critical"`. -/
theorem classify_at_threshold_ok_counterexample :
    getStatus 1 1 "greater" "ok" = "warning" ∧
    getStatus 1 1 "greater" "ok" ≠ "critical" := by
  constructor <;> norm_num +decide [getStatus]

/-- Claim C2 (amended): for every threshold `T > 0`,
`classify(T, T, "greater", "ok")` returns `"warning"`: the primary comparison
`T > T` is false, but the warning band fires since `T ≥ 0.9·T`; the
default-status inversion is never reached. -/
theorem classify_at_threshold_ok_warning (T : ℚ) (hT : 0 < T) :
    getStatus T T "greater" "ok" = "warning" := by
  rw [getStatus_greater T T "ok" (by decide), if_neg (lt_irrefl T),
    if_pos (by linarith)]

/-- Witness for the amended C2 at `T = 1`. -/
theorem classify_at_threshold_ok_warning_witness :
    (0 : ℚ) < 1 ∧ getStatus 1 1 "greater" "ok" = "warning" :=
  ⟨by norm_num, classify_at_threshold_ok_warning 1 (by norm_num)⟩

/-- Claim C10: for every non-empty comparison type outside
greater/greater_equal/less/less_equal/equal, neither the primary comparison
nor the warning band can fire, so the classifier returns `"normal"` exactly
when the (defaulted) triggered status is `"critical"` and `"critical"`
otherwise; and the unset-type default `"greater"` applies to the empty
comparison type. -/
theorem classify_unknown_type (v T : ℚ) (ty st : String)
    (h : ty ∉ (["", "greater", "greater_equal", "less", "less_equal", "equal"] : List String)) :
    getStatus v T ty st =
      (if (if st = "" then "critical" else st) = "critical" then "normal" else "critical") ∧
    getStatus v T "" st = getStatus v T "greater" st := by
  simp only [List.mem_cons, List.mem_singleton, not_or] at h
  obtain ⟨h0, h1, h2, h3, h4, h5, -⟩ := h
  constructor
  · simp only [getStatus, if_neg h0, if_neg h1, if_neg h2, if_neg h3, if_neg h4,
      if_neg h5, Bool.false_eq_true, if_false]
  · simp only [getStatus, String.reduceEq, reduceIte]

/-- Witness for C10 at comparison type `"between"`, status `"ok"`,
`v = 1`, `T = 2`. -/
theorem classify_unknown_type_witness :
    "between" ∉ (["", "greater", "greater_equal", "less", "less_equal", "equal"] : List String) ∧
    (getStatus 1 2 "between" "ok" =
      (if (if "ok" = "" then "critical" else "ok") = "critical" then "normal" else "critical") ∧
    getStatus 1 2 "" "ok" = getStatus 1 2 "greater" "ok") :=
  ⟨by decide, classify_unknown_type 1 2 "between" "ok" (by decide)⟩

/-! ## Metrics collection (`pkg/metrics`, `CollectMetrics` / `validateMetricData`) -/

/-- Embedding of `report.LabelData` (fields as constructed in
`CollectMetrics`): source label name, display alias, resolved value. -/
structure LabelData where
  Name : String
  Alias : String
  Value : String
deriving DecidableEq, Repr

/-- Embedding of `report.MetricData` as assembled by `CollectMetrics`
(the `Timestamp` field, stamped with `time.Now()`, is omitted). -/
structure MetricData where
  Name : String
  Description : String
  Value : ℚ
  Threshold : ℚ
  Unit : String
  Status : String
  StatusText : String
  Labels : List LabelData
deriving DecidableEq, Repr

/-- A Prometheus sample value: the Go `float64` is modelled as either a
finite rational or one of the non-finite values NaN / +Inf / -Inf. -/
inductive SampleValue where
  | finite (q : ℚ)
  | nan
  | posInf
  | negInf
deriving DecidableEq, Repr

/-- The collector's validity guard: `!(math.IsNaN(v) || math.IsInf(v, 0))`. -/
def SampleValue.isValid : SampleValue → Bool
  | .finite _ => true
  | _ => false

/-- One sample of a Prometheus vector result: its label set
(`sample.Metric`, a map, modelled as an association list) and its value. -/
structure Sample where
  metric : List (String × String)
  value : SampleValue
deriving DecidableEq, Repr

/-- Embedding of `config.Metric` (the fields `CollectMetrics` reads):
name, description, threshold, comparison type, triggered status, unit, and
the configured label map (source label name → display alias). -/
structure MetricConfig where
  name : String
  description : String
  threshold : ℚ
  thresholdType : String
  thresholdStatus : String
  unit : String
  labels : List (String × String)
deriving DecidableEq, Repr

/-- Label resolution in `CollectMetrics`: a configured label takes the
sample's raw value when present and non-empty, else the sentinel `"-"`. -/
def resolveLabel (availableLabels : List (String × String)) (configLabel : String) : String :=
  match availableLabels.lookup configLabel with
  | some rawValue => if rawValue ≠ "" then rawValue else "-"
  | none => "-"

/-- The label-building loop of `CollectMetrics`: one `LabelData` per
configured label, in configuration order. -/
def buildLabels (metricLabels availableLabels : List (String × String)) : List LabelData :=
  metricLabels.map fun p => { Name := p.1, Alias := p.2, Value := resolveLabel availableLabels p.1 }

/-- The per-label loop of `validateMetricData`: the first label whose name is
not configured, or whose value is empty, yields the corresponding error. -/
def checkLabels (configLabels : List (String × String)) : List LabelData → Except String Unit
  | [] => .ok ()
  | l :: rest =>
    if (configLabels.lookup l.Name).isNone then .error ("发现未配置的标签: " ++ l.Name)
    else if l.Value = "" then .error ("标签 " ++ l.Name ++ " 值为空")
    else checkLabels configLabels rest

/-- Embedding of `validateMetricData(data, configLabels)`: rejects on label
count mismatch, unconfigured label name, or empty label value. -/
def validateMetricData (data : MetricData) (configLabels : List (String × String)) :
    Except String Unit :=
  if data.Labels.length ≠ configLabels.length then .error "标签数量不匹配"
  else checkLabels configLabels data.Labels

/-- The per-sample body of the vector loop in `CollectMetrics`: resolve
labels, drop the sample if its value is NaN/Inf, classify, validate; `some`
is an accepted `MetricData`, `none` a skipped sample. -/
def processSample (metric : MetricConfig) (sample : Sample) : Option MetricData :=
  let availableLabels := sample.metric
  let labels := buildLabels metric.labels availableLabels
  match sample.value with
  | .finite value =>
    let metricData : MetricData :=
      { Name := metric.name
        Description := metric.description
        Value := value
        Threshold := metric.threshold
        Unit := metric.unit
        Status := getStatus value metric.threshold metric.thresholdType metric.thresholdStatus
        StatusText := GetStatusText
          (getStatus value metric.threshold metric.thresholdType metric.thresholdStatus)
        Labels := labels }
    match validateMetricData metricData metric.labels with
    | .ok _ => some metricData
    | .error _ => none
  | _ => none

/-- The vector branch of `CollectMetrics` for one queried metric: the
accepted samples, in vector order. -/
def processVector (metric : MetricConfig) (samples : List Sample) : List MetricData :=
  samples.filterMap (processSample metric)

/-- A key that occurs in an association list is found by `lookup`. -/
theorem lookup_isSome_of_mem (l : List (String × String)) (p : String × String)
    (hp : p ∈ l) : (l.lookup p.1).isSome = true := by
  induction l with
  | nil => cases hp
  | cons q rest ih =>
    rcases List.mem_cons.1 hp with h | h
    · subst h; simp [List.lookup]
    · by_cases hq : p.1 == q.1 <;> simp [List.lookup, hq, ih h]

/-- A resolved label value is never the empty string: the sentinel `"-"`
replaces a missing or empty raw value. -/
theorem resolveLabel_ne_empty (av : List (String × String)) (k : String) :
    resolveLabel av k ≠ "" := by
  unfold resolveLabel
  cases av.lookup k with
  | none => decide
  | some rawValue =>
    by_cases h : rawValue = "" <;> simp [h]

/-- `checkLabels` accepts a label list whose names are all configured and
whose values are all non-empty. -/
theorem checkLabels_ok (cfg : List (String × String)) (labels : List LabelData)
    (h : ∀ l ∈ labels, (cfg.lookup l.Name).isSome = true ∧ l.Value ≠ "") :
    checkLabels cfg labels = .ok () := by
  induction labels with
  | nil => rfl
  | cons l rest ih =>
    obtain ⟨h1, h2⟩ := h l (List.mem_cons_self l rest)
    have h1n : (List.lookup l.Name cfg).isNone = false := by
      cases hlk : List.lookup l.Name cfg
      · rw [hlk] at h1; cases h1
      · rfl
    simp only [checkLabels, h1n, Bool.false_eq_true, if_false, if_neg h2]
    exact ih fun x hx => h x (List.mem_cons_of_mem l hx)

/-- Every label built by the collector has a configured name and a
non-empty value. -/
theorem mem_buildLabels (metricLabels av : List (String × String)) (l : LabelData)
    (hl : l ∈ buildLabels metricLabels av) :
    (metricLabels.lookup l.Name).isSome = true ∧ l.Value ≠ "" := by
  obtain ⟨p, hp, rfl⟩ := List.mem_map.1 hl
  exact ⟨lookup_isSome_of_mem metricLabels p hp, resolveLabel_ne_empty av p.1⟩

/-- Claim C9: the collector's resolved label list has exactly one entry per
configured label and only non-empty values, so `validateMetricData` always
accepts the record the collector builds, and a sample is accepted exactly
when its value is finite. -/
theorem collect_label_validation (metric : MetricConfig) (sample : Sample) :
    (buildLabels metric.labels sample.metric).length = metric.labels.length ∧
    (∀ l ∈ buildLabels metric.labels sample.metric, l.Value ≠ "") ∧
    (∀ d : MetricData, d.Labels = buildLabels metric.labels sample.metric →
      validateMetricData d metric.labels = .ok ()) ∧
    (processSample metric sample).isSome = sample.value.isValid := by
  have hval : ∀ d : MetricData, d.Labels = buildLabels metric.labels sample.metric →
      validateMetricData d metric.labels = .ok () := by
    intro d hd
    rw [validateMetricData, if_neg (by simp [hd, buildLabels]), hd]
    exact checkLabels_ok _ _ fun l hl => mem_buildLabels _ _ l hl
  refine ⟨by simp [buildLabels], ?_, hval, ?_⟩
  · intro l hl; exact (mem_buildLabels _ _ l hl).2
  · cases hv : sample.value with
    | finite q =>
      have hv2 := hval
        { Name := metric.name, Description := metric.description, Value := q,
          Threshold := metric.threshold, Unit := metric.unit,
          Status := getStatus q metric.threshold metric.thresholdType metric.thresholdStatus,
          StatusText := GetStatusText
            (getStatus q metric.threshold metric.thresholdType metric.thresholdStatus),
          Labels := buildLabels metric.labels sample.metric } rfl
      rw [processSample, hv]
      simp only [hv2, SampleValue.isValid, Option.isSome_some]
    | nan => rw [processSample, hv]; rfl
    | posInf => rw [processSample, hv]; rfl
    | negInf => rw [processSample, hv]; rfl

/-- Witness for C9 at a concrete metric configuration and sample. -/
theorem collect_label_validation_witness :
    (buildLabels [("instance", "实例")] [("instance", "node2")]).length =
      ([("instance", "实例")] : List (String × String)).length ∧
    (∀ l ∈ buildLabels [("instance", "实例")] [("instance", "node2")], l.Value ≠ "") ∧
    (∀ d : MetricData, d.Labels = buildLabels [("instance", "实例")] [("instance", "node2")] →
      validateMetricData d [("instance", "实例")] = .ok ()) ∧
    (processSample
      { name := "node_cpu_usage", description := "CPU使用率", threshold := 80,
        thresholdType := "greater", thresholdStatus := "critical", unit := "%",
        labels := [("instance", "实例")] }
      { metric := [("instance", "node2")], value := .finite 42 }).isSome =
      (SampleValue.finite 42).isValid :=
  collect_label_validation
    { name := "node_cpu_usage", description := "CPU使用率", threshold := 80,
      thresholdType := "greater", thresholdStatus := "critical", unit := "%",
      labels := [("instance", "实例")] }
    { metric := [("instance", "node2")], value := .finite 42 }

/-- A sample whose value is NaN or ±Inf is always skipped by the vector
loop. -/
theorem processSample_eq_none (metric : MetricConfig) (sample : Sample)
    (h : sample.value.isValid = false) : processSample metric sample = none := by
  cases hv : sample.value with
  | finite q => rw [hv] at h; simp [SampleValue.isValid] at h
  | nan => rw [processSample, hv]
  | posInf => rw [processSample, hv]
  | negInf => rw [processSample, hv]

/-- A concrete metric configuration used for concrete test vectors. -/
def cpuMetric : MetricConfig :=
  { name := "node_cpu_usage", description := "CPU使用率", threshold := 80,
    thresholdType := "greater", thresholdStatus := "critical", unit := "%",
    labels := [("instance", "实例")] }

/-- A vector sample carrying a NaN value. -/
def nanSample : Sample := { metric := [("instance", "node1")], value := .nan }

/-- A vector sample carrying the finite value `42`. -/
def validSample : Sample := { metric := [("instance", "node2")], value := .finite 42 }

/-- Claim C4: `CollectMetrics` never places a NaN/Inf sample into a metric
group — processing a vector equals processing only its finite-valued
samples — and a vector of one NaN sample and one finite sample yields
exactly the finite one. -/
theorem collect_metrics_drops_nonfinite :
    (∀ (metric : MetricConfig) (samples : List Sample),
      processVector metric samples =
        processVector metric (samples.filter fun s => s.value.isValid)) ∧
    processVector cpuMetric [nanSample, validSample] =
      processVector cpuMetric [validSample] ∧
    (processVector cpuMetric [nanSample, validSample]).map (fun d => d.Value) = [42] := by
  refine ⟨fun metric samples => ?_, ?_, ?_⟩
  · induction samples with
    | nil => rfl
    | cons s rest ih =>
      by_cases hs : s.value.isValid
      · simp [processVector, List.filterMap_cons, List.filter_cons, hs] at ih ⊢
        rw [ih]
      · simp [processVector, List.filterMap_cons, List.filter_cons, hs,
          processSample_eq_none metric s (by simpa using hs)] at ih ⊢
        exact ih
  · norm_num +decide [processVector, processSample, buildLabels, resolveLabel,
      validateMetricData, checkLabels, cpuMetric, nanSample, validSample]
  · norm_num +decide [processVector, processSample, buildLabels, resolveLabel,
      validateMetricData, checkLabels, getStatus, GetStatusText, cpuMetric,
      nanSample, validSample]

/-! ## Alert summary aggregation (`pkg/notify`) -/

/-- Embedding of `report.MetricGroup`: type name (the Go field `Type`, here
`type` since `Type` is a Lean keyword) and the metric-name → samples map
(modelled as an association list, as built by `CollectMetrics`). -/
structure MetricGroup where
  type : String
  MetricsByName : List (String × List MetricData)
deriving DecidableEq, Repr

/-- Embedding of `report.ReportData` (the fields the aggregators read;
`Timestamp` and `ChartData` are omitted): project name, datasource, and the
type-name → group map. -/
structure ReportData where
  Project : String
  Datasource : String
  MetricGroups : List (String × MetricGroup)
deriving DecidableEq, Repr

/-- Embedding of `notify.AlertSummary`. -/
structure AlertSummary where
  TotalAlerts : Nat
  CriticalAlerts : Nat
  WarningAlerts : Nat
  NormalMetrics : Nat
  TotalMetrics : Nat
deriving DecidableEq, Repr

/-- Embedding of `notify.TypeAlertSummary` (the Go field `Type` is `type`
here, since `Type` is a Lean keyword). -/
structure TypeAlertSummary where
  type : String
  TotalMetrics : Nat
  CriticalCount : Nat
  WarningCount : Nat
  NormalCount : Nat
deriving DecidableEq, Repr

/-- The per-metric body of `CalculateAlertSummary`: bump `TotalMetrics`,
then the counter selected by the metric status (`critical` and `warning`
also bump `TotalAlerts`). -/
def tallyMetric (s : AlertSummary) (m : MetricData) : AlertSummary :=
  let s := { s with TotalMetrics := s.TotalMetrics + 1 }
  if m.Status = "critical" then
    { s with CriticalAlerts := s.CriticalAlerts + 1, TotalAlerts := s.TotalAlerts + 1 }
  else if m.Status = "warning" then
    { s with WarningAlerts := s.WarningAlerts + 1, TotalAlerts := s.TotalAlerts + 1 }
  else
    { s with NormalMetrics := s.NormalMetrics + 1 }

/-- Embedding of `notify.CalculateAlertSummary`: the triple loop over
groups, metric names and metrics, starting from the zero summary. -/
def CalculateAlertSummary (data : ReportData) : AlertSummary :=
  data.MetricGroups.foldl
    (fun s p => p.2.MetricsByName.foldl
      (fun s q => q.2.foldl tallyMetric s) s)
    { TotalAlerts := 0, CriticalAlerts := 0, WarningAlerts := 0,
      NormalMetrics := 0, TotalMetrics := 0 }

/-- The per-metric body of the per-type loop of
`CalculateTypeAlertSummary`. -/
def tallyTypeMetric (s : TypeAlertSummary) (m : MetricData) : TypeAlertSummary :=
  let s := { s with TotalMetrics := s.TotalMetrics + 1 }
  if m.Status = "critical" then { s with CriticalCount := s.CriticalCount + 1 }
  else if m.Status = "warning" then { s with WarningCount := s.WarningCount + 1 }
  else { s with NormalCount := s.NormalCount + 1 }

/-- The per-group summary of `CalculateTypeAlertSummary`: counters over all
metrics of one group, tagged with the group's type name. -/
def typeSummaryOf (typeName : String) (group : MetricGroup) : TypeAlertSummary :=
  group.MetricsByName.foldl (fun s q => q.2.foldl tallyTypeMetric s)
    { type := typeName, TotalMetrics := 0, CriticalCount := 0,
      WarningCount := 0, NormalCount := 0 }

/-- One iteration of the outer index `i` of the exchange-sort loop in
`CalculateTypeAlertSummary`: compare the element at `i` against every later
element, swapping whenever its type name is lexically greater; returns the
final element at `i` and the transformed tail. -/
def sortPass (x : TypeAlertSummary) :
    List TypeAlertSummary → TypeAlertSummary × List TypeAlertSummary
  | [] => (x, [])
  | y :: ys =>
    if x.type > y.type then
      let p := sortPass y ys
      (p.1, x :: p.2)
    else
      let p := sortPass x ys
      (p.1, y :: p.2)

/-- `sortPass` keeps the length of the tail. -/
theorem sortPass_length (x : TypeAlertSummary) (l : List TypeAlertSummary) :
    (sortPass x l).2.length = l.length := by
  induction l generalizing x with
  | nil => rfl
  | cons y ys ih =>
    rw [sortPass]
    by_cases h : x.type > y.type <;> simp [h, ih]

/-- The double loop sorting the slice in `CalculateTypeAlertSummary`. -/
def sortSummaries : List TypeAlertSummary → List TypeAlertSummary
  | [] => []
  | x :: xs =>
    let p := sortPass x xs
    p.1 :: sortSummaries p.2
termination_by l => l.length
decreasing_by simp [sortPass_length]

/-- Embedding of `notify.CalculateTypeAlertSummary`: one per-type summary
per metric group, collected into a slice and sorted by type name. -/
def CalculateTypeAlertSummary (data : ReportData) : List TypeAlertSummary :=
  sortSummaries (data.MetricGroups.map fun p => typeSummaryOf p.1 p.2)

/-- A property preserved by each step of a left fold is preserved by the
fold. -/
theorem foldl_preserves {α β : Type} (P : α → Prop) (f : α → β → α)
    (hf : ∀ a b, P a → P (f a b)) :
    ∀ (l : List β) (a : α), P a → P (l.foldl f a) := by
  intro l
  induction l with
  | nil => intro a ha; exact ha
  | cons b rest ih => intro a ha; exact ih (f a b) (hf a b ha)

/-- Internal consistency of one `AlertSummary`. -/
def summaryConsistent (s : AlertSummary) : Prop :=
  s.TotalMetrics = s.CriticalAlerts + s.WarningAlerts + s.NormalMetrics ∧
  s.TotalAlerts = s.CriticalAlerts + s.WarningAlerts

/-- `tallyMetric` preserves summary consistency. -/
theorem tallyMetric_consistent (s : AlertSummary) (m : MetricData)
    (h : summaryConsistent s) : summaryConsistent (tallyMetric s m) := by
  obtain ⟨h1, h2⟩ := h
  unfold summaryConsistent tallyMetric
  by_cases hc : m.Status = "critical"
  · simp [hc]; omega
  · by_cases hw : m.Status = "warning" <;> simp [hc, hw] <;> omega

/-- Claim C3: for every `ReportData`, `CalculateAlertSummary` satisfies
`TotalMetrics = CriticalAlerts + WarningAlerts + NormalMetrics` and
`TotalAlerts = CriticalAlerts + WarningAlerts`. -/
theorem alert_summary_consistent (data : ReportData) :
    (CalculateAlertSummary data).TotalMetrics =
      (CalculateAlertSummary data).CriticalAlerts +
      (CalculateAlertSummary data).WarningAlerts +
      (CalculateAlertSummary data).NormalMetrics ∧
    (CalculateAlertSummary data).TotalAlerts =
      (CalculateAlertSummary data).CriticalAlerts +
      (CalculateAlertSummary data).WarningAlerts := by
  have : summaryConsistent (CalculateAlertSummary data) := by
    unfold CalculateAlertSummary
    refine foldl_preserves summaryConsistent _ ?_ _ _ ⟨rfl, rfl⟩
    intro a p ha
    refine foldl_preserves summaryConsistent _ ?_ _ _ ha
    intro a q ha
    exact foldl_preserves summaryConsistent _ tallyMetric_consistent _ _ ha
  exact this

/-- `tallyTypeMetric` never changes the type name. -/
theorem tallyTypeMetric_type (s : TypeAlertSummary) (m : MetricData) :
    (tallyTypeMetric s m).type = s.type := by
  unfold tallyTypeMetric
  by_cases hc : m.Status = "critical"
  · simp [hc]
  · by_cases hw : m.Status = "warning" <;> simp [hc, hw]

/-- The per-group summary carries its group's type name. -/
theorem typeSummaryOf_type (typeName : String) (group : MetricGroup) :
    (typeSummaryOf typeName group).type = typeName := by
  unfold typeSummaryOf
  refine foldl_preserves (fun s : TypeAlertSummary => s.type = typeName) _ ?_ _ _ rfl
  intro a q ha
  refine foldl_preserves (fun s : TypeAlertSummary => s.type = typeName) _ ?_ _ _ ha
  intro a m ha
  rw [tallyTypeMetric_type, ha]

/-- Internal consistency of one `TypeAlertSummary`. -/
def typeSummaryConsistent (s : TypeAlertSummary) : Prop :=
  s.TotalMetrics = s.CriticalCount + s.WarningCount + s.NormalCount

/-- `tallyTypeMetric` preserves per-type consistency. -/
theorem tallyTypeMetric_consistent (s : TypeAlertSummary) (m : MetricData)
    (h : typeSummaryConsistent s) : typeSummaryConsistent (tallyTypeMetric s m) := by
  unfold typeSummaryConsistent at h ⊢
  unfold tallyTypeMetric
  by_cases hc : m.Status = "critical"
  · simp [hc]; omega
  · by_cases hw : m.Status = "warning" <;> simp [hc, hw] <;> omega

/-- The per-group summary is internally consistent. -/
theorem typeSummaryOf_consistent (typeName : String) (group : MetricGroup) :
    typeSummaryConsistent (typeSummaryOf typeName group) := by
  unfold typeSummaryOf
  refine foldl_preserves typeSummaryConsistent _ ?_ _ _ rfl
  intro a q ha
  exact foldl_preserves typeSummaryConsistent _ tallyTypeMetric_consistent _ _ ha

/-- One exchange pass is a permutation: the extracted head together with the
transformed tail rearranges the original elements. -/
theorem sortPass_perm (x : TypeAlertSummary) (l : List TypeAlertSummary) :
    List.Perm ((sortPass x l).1 :: (sortPass x l).2) (x :: l) := by
  induction l generalizing x with
  | nil => rfl
  | cons y ys ih =>
    rw [sortPass]
    by_cases h : x.type > y.type
    · simp only [if_pos h]
      have h1 : List.Perm ((sortPass y ys).1 :: x :: (sortPass y ys).2)
          (x :: (sortPass y ys).1 :: (sortPass y ys).2) := List.Perm.swap _ _ _
      have h2 : List.Perm (x :: (sortPass y ys).1 :: (sortPass y ys).2) (x :: y :: ys) :=
        List.Perm.cons x (ih y)
      exact h1.trans h2
    · simp only [if_neg h]
      have h1 : List.Perm ((sortPass x ys).1 :: y :: (sortPass x ys).2)
          (y :: (sortPass x ys).1 :: (sortPass x ys).2) := List.Perm.swap _ _ _
      have h2 : List.Perm (y :: (sortPass x ys).1 :: (sortPass x ys).2) (y :: x :: ys) :=
        List.Perm.cons y (ih x)
      have h3 : List.Perm (y :: x :: ys) (x :: y :: ys) := List.Perm.swap _ _ _
      exact h1.trans (h2.trans h3)

/-- The element extracted by one exchange pass is minimal (by type name)
among the original head and everything in the transformed tail. -/
theorem sortPass_min (x : TypeAlertSummary) (l : List TypeAlertSummary) :
    (sortPass x l).1.type ≤ x.type ∧
    ∀ z ∈ (sortPass x l).2, (sortPass x l).1.type ≤ z.type := by
  induction l generalizing x with
  | nil => exact ⟨le_refl _, by intro z hz; cases hz⟩
  | cons y ys ih =>
    rw [sortPass]
    by_cases h : x.type > y.type
    · simp only [if_pos h]
      obtain ⟨ih1, ih2⟩ := ih y
      refine ⟨le_trans ih1 (le_of_lt h), ?_⟩
      intro z hz
      rcases List.mem_cons.1 hz with rfl | hz
      · exact le_trans ih1 (le_of_lt h)
      · exact ih2 z hz
    · simp only [if_neg h]
      obtain ⟨ih1, ih2⟩ := ih x
      refine ⟨ih1, ?_⟩
      intro z hz
      rcases List.mem_cons.1 hz with rfl | hz
      · exact le_trans ih1 (not_lt.1 h)
      · exact ih2 z hz

/-- The exchange sort permutes its input. -/
theorem sortSummaries_perm (l : List TypeAlertSummary) :
    List.Perm (sortSummaries l) l := by
  induction l using sortSummaries.induct with
  | case1 => rw [sortSummaries]
  | case2 x xs p ih =>
    rw [sortSummaries]
    exact (List.Perm.cons _ ih).trans (sortPass_perm x xs)

/-- The exchange sort yields a list sorted (non-strictly) by type name. -/
theorem sortSummaries_sorted (l : List TypeAlertSummary) :
    List.Sorted (fun a b => a.type ≤ b.type) (sortSummaries l) := by
  induction l using sortSummaries.induct with
  | case1 => rw [sortSummaries]; exact List.sorted_nil
  | case2 x xs p ih =>
    rw [sortSummaries]
    refine List.sorted_cons.2 ⟨?_, ih⟩
    intro b hb
    have hb2 : b ∈ (sortPass x xs).2 := ((sortSummaries_perm _).mem_iff).1 hb
    exact (sortPass_min x xs).2 b hb2

/-- Claim C8: `CalculateTypeAlertSummary` returns one entry per metric
group (its type names are a rearrangement of the group keys, and the
lengths agree), sorted ascending by type name, and every entry satisfies
`TotalMetrics = CriticalCount + WarningCount + NormalCount`. -/
theorem type_alert_summary_sorted (data : ReportData) :
    List.Perm ((CalculateTypeAlertSummary data).map (fun s => s.type))
      (data.MetricGroups.map Prod.fst) ∧
    (CalculateTypeAlertSummary data).length = data.MetricGroups.length ∧
    List.Sorted (fun a b => a.type ≤ b.type) (CalculateTypeAlertSummary data) ∧
    ∀ s ∈ CalculateTypeAlertSummary data,
      s.TotalMetrics = s.CriticalCount + s.WarningCount + s.NormalCount := by
  have hperm : List.Perm (CalculateTypeAlertSummary data)
      (data.MetricGroups.map fun p => typeSummaryOf p.1 p.2) :=
    sortSummaries_perm _
  refine ⟨?_, ?_, sortSummaries_sorted _, ?_⟩
  · have h1 : ((data.MetricGroups.map fun p => typeSummaryOf p.1 p.2).map
        (fun s => s.type)) = data.MetricGroups.map Prod.fst := by
      rw [List.map_map]
      exact List.map_congr_left fun p _ => typeSummaryOf_type p.1 p.2
    exact h1 ▸ hperm.map (fun s => s.type)
  · rw [hperm.length_eq, List.length_map]
  · intro s hs
    have : s ∈ data.MetricGroups.map fun p => typeSummaryOf p.1 p.2 :=
      hperm.mem_iff.1 hs
    obtain ⟨p, -, rfl⟩ := List.mem_map.1 this
    exact typeSummaryOf_consistent p.1 p.2

/-! ## Task registry (`pkg/taskmanager`) -/

/-- Embedding of `taskmanager.TaskStatus`. -/
inductive TaskStatus where
  | pending
  | running
  | completed
  | failed
deriving DecidableEq, Repr

/-- Embedding of `taskmanager.TaskStep` (times as abstract `Nat` stamps). -/
structure TaskStep where
  Name : String
  Status : TaskStatus
  StartTime : Nat
  EndTime : Nat
  Error : String
  Description : String
deriving DecidableEq, Repr

/-- Embedding of `taskmanager.TaskLog` (the Go field `Type` is `type` here,
since `Type` is a Lean keyword). -/
structure TaskLog where
  Time : Nat
  Message : String
  type : String
deriving DecidableEq, Repr

/-- Embedding of `taskmanager.InspectionTask`.  The Go `cancel`
`context.CancelFunc` is modelled by the flag `cancelled`, set when the
cancellation token is signalled. -/
structure InspectionTask where
  ID : String
  Name : String
  Datasource : String
  Status : TaskStatus
  Progress : Int
  StartTime : Nat
  EndTime : Nat
  Error : String
  Steps : List TaskStep
  Logs : List TaskLog
  ReportPath : String
  cancelled : Bool
deriving DecidableEq, Repr

/-- Embedding of `taskmanager.TaskManager`: the id → task map (an
association list) and the id counter. -/
structure TaskManager where
  tasks : List (String × InspectionTask)
  nextID : Nat
deriving DecidableEq, Repr

/-- Go map read `tasks[id]`: the entry with the given key. -/
def findTask : List (String × InspectionTask) → String → Option InspectionTask
  | [], _ => none
  | p :: rest, id => if p.1 = id then some p.2 else findTask rest id

/-- Go map write through the retrieved pointer: replace the entry with the
given key. -/
def setTask : List (String × InspectionTask) → String → InspectionTask →
    List (String × InspectionTask)
  | [], _, _ => []
  | p :: rest, id, t => if p.1 = id then (p.1, t) :: rest else p :: setTask rest id t

/-- The shared shape of every mutating registry operation: look the id up,
and if present mutate that task; an unknown id is a silent no-op. -/
def modifyTask (tm : TaskManager) (id : String) (f : InspectionTask → InspectionTask) :
    TaskManager :=
  match findTask tm.tasks id with
  | some t => { tm with tasks := setTask tm.tasks id (f t) }
  | none => tm

/-- The step-update loop of `UpdateTaskProgress`: the first step with the
given name that is still pending becomes running with its start time
stamped; the loop then breaks. -/
def startPendingStep (stepName : String) (now : Nat) : List TaskStep → List TaskStep
  | [] => []
  | s :: rest =>
    if s.Name = stepName ∧ s.Status = TaskStatus.pending then
      { s with Status := .running, StartTime := now } :: rest
    else s :: startPendingStep stepName now rest

/-- The step loop of `CompleteStep`: the first step with the given name
becomes completed with its end time stamped. -/
def completeStepInList (stepName : String) (now : Nat) : List TaskStep → List TaskStep
  | [] => []
  | s :: rest =>
    if s.Name = stepName then
      { s with Status := .completed, EndTime := now } :: rest
    else s :: completeStepInList stepName now rest

/-- The step loop of `FailStep`: the first step with the given name becomes
failed, with end time and error message recorded. -/
def failStepInList (stepName errorMsg : String) (now : Nat) : List TaskStep → List TaskStep
  | [] => []
  | s :: rest =>
    if s.Name = stepName then
      { s with Status := .failed, EndTime := now, Error := errorMsg } :: rest
    else s :: failStepInList stepName errorMsg now rest

/-- Embedding of `UpdateTaskProgress(id, progress, stepName)`. -/
def UpdateTaskProgress (tm : TaskManager) (id : String) (progress : Int)
    (stepName : String) (now : Nat) : TaskManager :=
  modifyTask tm id fun task =>
    { task with
      Progress := progress
      Steps := startPendingStep stepName now task.Steps
      Logs := task.Logs ++ [{ Time := now, Message := stepName, type := "info" }] }

/-- Embedding of `CompleteStep(id, stepName)`. -/
def CompleteStep (tm : TaskManager) (id stepName : String) (now : Nat) : TaskManager :=
  modifyTask tm id fun task =>
    { task with
      Steps := completeStepInList stepName now task.Steps
      Logs := task.Logs ++ [{ Time := now, Message := stepName ++ " 完成", type := "success" }] }

/-- Embedding of `FailStep(id, stepName, errorMsg)`. -/
def FailStep (tm : TaskManager) (id stepName errorMsg : String) (now : Nat) : TaskManager :=
  modifyTask tm id fun task =>
    { task with
      Steps := failStepInList stepName errorMsg now task.Steps
      Logs := task.Logs ++
        [{ Time := now, Message := stepName ++ " 失败: " ++ errorMsg, type := "error" }] }

/-- Embedding of `CompleteTask(id, reportPath)`. -/
def CompleteTask (tm : TaskManager) (id reportPath : String) (now : Nat) : TaskManager :=
  modifyTask tm id fun task =>
    { task with
      Status := .completed
      Progress := 100
      EndTime := now
      ReportPath := reportPath
      Logs := task.Logs ++ [{ Time := now, Message := "巡检任务完成！", type := "success" }] }

/-- Embedding of `FailTask(id, errorMsg)`. -/
def FailTask (tm : TaskManager) (id errorMsg : String) (now : Nat) : TaskManager :=
  modifyTask tm id fun task =>
    { task with
      Status := .failed
      Error := errorMsg
      EndTime := now
      Logs := task.Logs ++
        [{ Time := now, Message := "巡检任务失败: " ++ errorMsg, type := "error" }] }

/-- Embedding of `CancelTask(id)`: signal the cancellation token, force
status failed with the fixed message, stamp the end time, append an error
log entry. -/
def CancelTask (tm : TaskManager) (id : String) (now : Nat) : TaskManager :=
  modifyTask tm id fun task =>
    { task with
      cancelled := true
      Status := .failed
      Error := "任务已取消"
      EndTime := now
      Logs := task.Logs ++ [{ Time := now, Message := "巡检任务已取消", type := "error" }] }

/-- Writing a task under a key and reading the same key back gives the
written task exactly when the key was present. -/
theorem findTask_setTask_self (l : List (String × InspectionTask)) (id : String)
    (t : InspectionTask) :
    findTask (setTask l id t) id = if (findTask l id).isSome then some t else none := by
  induction l with
  | nil => rfl
  | cons p rest ih =>
    by_cases h : p.1 = id
    · simp [setTask, findTask, h]
    · simp [setTask, findTask, h, ih]

/-- Writing a task under one key never changes what any other key reads. -/
theorem findTask_setTask_ne (l : List (String × InspectionTask)) (id id' : String)
    (t : InspectionTask) (h : id' ≠ id) :
    findTask (setTask l id t) id' = findTask l id' := by
  induction l with
  | nil => rfl
  | cons p rest ih =>
    by_cases hp : p.1 = id
    · have hne : ¬ p.1 = id' := fun he => h (he ▸ hp)
      simp [setTask, findTask, hp, hne, Ne.symm h]
    · by_cases hp2 : p.1 = id' <;> simp [setTask, findTask, hp, hp2, h, ih]

/-- A mutating operation on a present id rewrites exactly that task. -/
theorem findTask_modifyTask_self (tm : TaskManager) (id : String)
    (f : InspectionTask → InspectionTask) (t : InspectionTask)
    (h : findTask tm.tasks id = some t) :
    findTask (modifyTask tm id f).tasks id = some (f t) := by
  unfold modifyTask
  rw [h]
  simp only
  rw [findTask_setTask_self, h]
  rfl

/-- A mutating operation on one id never changes what another id reads. -/
theorem findTask_modifyTask_ne (tm : TaskManager) (id id' : String)
    (f : InspectionTask → InspectionTask) (h : id' ≠ id) :
    findTask (modifyTask tm id f).tasks id' = findTask tm.tasks id' := by
  unfold modifyTask
  cases hf : findTask tm.tasks id
  · rfl
  · simp only
    exact findTask_setTask_ne _ _ _ _ h

/-- An unknown id turns a mutating operation into the identity. -/
theorem modifyTask_unknown (tm : TaskManager) (id : String)
    (f : InspectionTask → InspectionTask) (h : findTask tm.tasks id = none) :
    modifyTask tm id f = tm := by
  unfold modifyTask
  rw [h]

/-- Claim C5: for a task present in the registry — whatever its prior
status — `CancelTask` sets status failed, records the fixed cancellation
message, signals the cancellation token, stamps the end time and appends an
error log entry. -/
theorem cancel_task_forces_failed (tm : TaskManager) (id : String) (now : Nat)
    (t : InspectionTask) (h : findTask tm.tasks id = some t) :
    findTask (CancelTask tm id now).tasks id = some
      { t with
        cancelled := true
        Status := .failed
        Error := "任务已取消"
        EndTime := now
        Logs := t.Logs ++ [{ Time := now, Message := "巡检任务已取消", type := "error" }] } :=
  findTask_modifyTask_self tm id _ t h

/-- A concrete running task used as a witness input. -/
def demoTask : InspectionTask :=
  { ID := "task_1", Name := "巡检任务", Datasource := "http://prom:9090",
    Status := .running, Progress := 50, StartTime := 3, EndTime := 0,
    Error := "", Steps := [], Logs := [], ReportPath := "", cancelled := false }

/-- A concrete registry holding `demoTask` under id `"task_1"`. -/
def demoTM : TaskManager := { tasks := [("task_1", demoTask)], nextID := 1 }

/-- Witness for C5: cancelling the concrete running task `"task_1"`. -/
theorem cancel_task_forces_failed_witness :
    findTask demoTM.tasks "task_1" = some demoTask ∧
    findTask (CancelTask demoTM "task_1" 9).tasks "task_1" = some
      { demoTask with
        cancelled := true
        Status := .failed
        Error := "任务已取消"
        EndTime := 9
        Logs := demoTask.Logs ++
          [{ Time := 9, Message := "巡检任务已取消", type := "error" }] } :=
  ⟨rfl, cancel_task_forces_failed demoTM "task_1" 9 demoTask rfl⟩

/-- Claim C6: on an id not present in the registry, each of the six
mutating operations returns the registry unchanged (and none of them can
signal an error: they return nothing else). -/
theorem unknown_id_mutators_noop (tm : TaskManager) (id : String) (progress : Int)
    (stepName errorMsg reportPath : String) (now : Nat)
    (h : findTask tm.tasks id = none) :
    UpdateTaskProgress tm id progress stepName now = tm ∧
    CompleteStep tm id stepName now = tm ∧
    FailStep tm id stepName errorMsg now = tm ∧
    CompleteTask tm id reportPath now = tm ∧
    FailTask tm id errorMsg now = tm ∧
    CancelTask tm id now = tm :=
  ⟨modifyTask_unknown tm id _ h, modifyTask_unknown tm id _ h,
   modifyTask_unknown tm id _ h, modifyTask_unknown tm id _ h,
   modifyTask_unknown tm id _ h, modifyTask_unknown tm id _ h⟩

/-- Witness for C6: the id `"ghost"` is unknown to the concrete registry,
and all six mutators leave it untouched. -/
theorem unknown_id_mutators_noop_witness :
    findTask demoTM.tasks "ghost" = none ∧
    (UpdateTaskProgress demoTM "ghost" 75 "收集服务状态" 4 = demoTM ∧
    CompleteStep demoTM "ghost" "收集服务状态" 4 = demoTM ∧
    FailStep demoTM "ghost" "收集服务状态" "超时" 4 = demoTM ∧
    CompleteTask demoTM "ghost" "reports/r.html" 4 = demoTM ∧
    FailTask demoTM "ghost" "超时" 4 = demoTM ∧
    CancelTask demoTM "ghost" 4 = demoTM) :=
  ⟨rfl, unknown_id_mutators_noop demoTM "ghost" 75 "收集服务状态" "超时"
    "reports/r.html" 4 rfl⟩

/-- One mutating registry operation (with its `time.Now()` stamp made
explicit). -/
inductive RegOp where
  | updateProgress (id : String) (progress : Int) (stepName : String) (now : Nat)
  | completeStep (id stepName : String) (now : Nat)
  | failStep (id stepName errorMsg : String) (now : Nat)
  | completeTask (id reportPath : String) (now : Nat)
  | failTask (id errorMsg : String) (now : Nat)
  | cancelTask (id : String) (now : Nat)
deriving DecidableEq, Repr

/-- Dispatch one registry operation. -/
def applyOp (tm : TaskManager) : RegOp → TaskManager
  | .updateProgress id p s n => UpdateTaskProgress tm id p s n
  | .completeStep id s n => CompleteStep tm id s n
  | .failStep id s e n => FailStep tm id s e n
  | .completeTask id r n => CompleteTask tm id r n
  | .failTask id e n => FailTask tm id e n
  | .cancelTask id n => CancelTask tm id n

/-- Apply a sequence of registry operations in order. -/
def applyOps (tm : TaskManager) (ops : List RegOp) : TaskManager :=
  ops.foldl applyOp tm

/-- The progress of the task under an id (0 when the id is unknown). -/
def progressOf (tm : TaskManager) (id : String) : Int :=
  match findTask tm.tasks id with
  | some t => t.Progress
  | none => 0

/-- An operation keeps progress from moving backwards on the current state:
`UpdateTaskProgress` must not be called with a percent below the task's
current progress, and `CompleteTask` (which writes 100) must not hit a task
already past 100; every other operation leaves progress untouched. -/
def progressSafe (tm : TaskManager) : RegOp → Bool
  | .updateProgress id p _ _ => decide (progressOf tm id ≤ p)
  | .completeTask id _ _ => decide (progressOf tm id ≤ 100)
  | _ => true

/-- Every operation of the sequence is progress-safe on the state it is
applied to. -/
def safeRun (tm : TaskManager) : List RegOp → Bool
  | [] => true
  | op :: ops => progressSafe tm op && safeRun (applyOp tm op) ops

/-- Reading the mutated id after a mutation gives the mutated task's
progress. -/
theorem progressOf_modifyTask_self (tm : TaskManager) (tid : String)
    (f : InspectionTask → InspectionTask) (t : InspectionTask)
    (h : findTask tm.tasks tid = some t) :
    progressOf (modifyTask tm tid f) tid = (f t).Progress := by
  unfold progressOf
  rw [findTask_modifyTask_self tm tid f t h]

/-- Reading any other id after a mutation is unchanged. -/
theorem progressOf_modifyTask_ne (tm : TaskManager) (tid : String)
    (f : InspectionTask → InspectionTask) (id : String) (h : id ≠ tid) :
    progressOf (modifyTask tm tid f) id = progressOf tm id := by
  unfold progressOf
  rw [findTask_modifyTask_ne tm tid id f h]

/-- A mutation that does not touch the progress field leaves every task's
progress reading unchanged. -/
theorem progressOf_modifyTask_of_preserved (tm : TaskManager) (tid : String)
    (f : InspectionTask → InspectionTask) (hf : ∀ t, (f t).Progress = t.Progress)
    (id : String) : progressOf (modifyTask tm tid f) id = progressOf tm id := by
  by_cases hid : id = tid
  · subst hid
    cases hf2 : findTask tm.tasks id with
    | none => rw [modifyTask_unknown tm id f hf2]
    | some t =>
      rw [progressOf_modifyTask_self tm id f t hf2, hf t]
      unfold progressOf
      rw [hf2]
  · exact progressOf_modifyTask_ne tm tid f id hid

/-- Inequality form of the preservation lemma, convenient for goal-directed
application. -/
theorem le_progressOf_modifyTask_of_preserved (tm : TaskManager) (tid : String)
    (f : InspectionTask → InspectionTask) (id : String)
    (hf : ∀ t, (f t).Progress = t.Progress) :
    progressOf tm id ≤ progressOf (modifyTask tm tid f) id :=
  le_of_eq (progressOf_modifyTask_of_preserved tm tid f hf id).symm

/-- A single progress-safe operation never decreases any task's progress. -/
theorem progressOf_applyOp_mono (tm : TaskManager) (op : RegOp) (id : String)
    (h : progressSafe tm op = true) :
    progressOf tm id ≤ progressOf (applyOp tm op) id := by
  cases op with
  | updateProgress tid p s n =>
    rw [progressSafe, decide_eq_true_eq] at h
    by_cases hid : id = tid
    · subst hid
      cases hf : findTask tm.tasks id with
      | none =>
        rw [applyOp, UpdateTaskProgress, modifyTask_unknown tm id _ hf]
      | some t =>
        rw [applyOp, UpdateTaskProgress, progressOf_modifyTask_self tm id _ t hf]
        exact h
    · rw [applyOp, UpdateTaskProgress, progressOf_modifyTask_ne tm tid _ id hid]
  | completeStep tid s n =>
    rw [applyOp, CompleteStep]
    apply le_progressOf_modifyTask_of_preserved
    intro t
    rfl
  | failStep tid s e n =>
    rw [applyOp, FailStep]
    apply le_progressOf_modifyTask_of_preserved
    intro t
    rfl
  | completeTask tid r n =>
    rw [progressSafe, decide_eq_true_eq] at h
    by_cases hid : id = tid
    · subst hid
      cases hf : findTask tm.tasks id with
      | none =>
        rw [applyOp, CompleteTask, modifyTask_unknown tm id _ hf]
      | some t =>
        rw [applyOp, CompleteTask, progressOf_modifyTask_self tm id _ t hf]
        exact h
    · rw [applyOp, CompleteTask, progressOf_modifyTask_ne tm tid _ id hid]
  | failTask tid e n =>
    rw [applyOp, FailTask]
    apply le_progressOf_modifyTask_of_preserved
    intro t
    rfl
  | cancelTask tid n =>
    rw [applyOp, CancelTask]
    apply le_progressOf_modifyTask_of_preserved
    intro t
    rfl

/-- A concrete fresh (pending, progress 0) task. -/
def freshTask : InspectionTask :=
  { ID := "task_1", Name := "巡检任务", Datasource := "http://prom:9090",
    Status := .pending, Progress := 0, StartTime := 0, EndTime := 0,
    Error := "", Steps := [], Logs := [], ReportPath := "", cancelled := false }

/-- A concrete registry holding the fresh task. -/
def freshTM : TaskManager := { tasks := [("task_1", freshTask)], nextID := 1 }

/-- Counterexample to claim C7: the registry does not enforce monotone
progress.  Starting from a fresh task, `UpdateTaskProgress` to 50 and then
to 25 moves the task's progress from 50 back down to 25. -/
theorem progress_monotone_counterexample :
    progressOf (applyOps freshTM [.updateProgress "task_1" 50 "收集服务状态" 1]) "task_1" = 50 ∧
    progressOf (applyOps freshTM [.updateProgress "task_1" 50 "收集服务状态" 1,
      .updateProgress "task_1" 25 "收集系统资源数据" 2]) "task_1" = 25 ∧
    ¬ progressOf (applyOps freshTM [.updateProgress "task_1" 50 "收集服务状态" 1]) "task_1" ≤
      progressOf (applyOps freshTM [.updateProgress "task_1" 50 "收集服务状态" 1,
        .updateProgress "task_1" 25 "收集系统资源数据" 2]) "task_1" := by
  refine ⟨rfl, rfl, ?_⟩
  decide

/-- Claim C7 (amended): `UpdateTaskProgress` writes exactly the caller's
percent and `CompleteTask` writes 100, so the registry itself does not
enforce monotonicity; progress is monotonically non-decreasing along every
operation sequence whose `UpdateTaskProgress` percents are at least the
task's current progress and whose `CompleteTask` calls hit tasks at
progress ≤ 100 (`safeRun`) — as in the standard 0→25→50→75→90→100
schedule. -/
theorem progress_monotone_of_safe (tm : TaskManager) (ops : List RegOp) (id : String)
    (h : safeRun tm ops = true) :
    progressOf tm id ≤ progressOf (applyOps tm ops) id := by
  induction ops generalizing tm with
  | nil => exact le_refl _
  | cons op rest ih =>
    rw [safeRun, Bool.and_eq_true] at h
    have h1 := progressOf_applyOp_mono tm op id h.1
    have h2 := ih (applyOp tm op) h.2
    rw [applyOps, List.foldl_cons]
    exact le_trans h1 h2

/-- Witness for the amended C7: the standard schedule on the fresh task is
safe and ends at progress 100 ≥ 0. -/
theorem progress_monotone_of_safe_witness :
    safeRun freshTM [.updateProgress "task_1" 25 "收集系统资源数据" 1,
      .updateProgress "task_1" 50 "收集服务状态" 2,
      .updateProgress "task_1" 75 "分析告警信息" 3,
      .updateProgress "task_1" 90 "生成巡检报告" 4,
      .completeTask "task_1" "reports/r.html" 5] = true ∧
    progressOf freshTM "task_1" ≤
      progressOf (applyOps freshTM [.updateProgress "task_1" 25 "收集系统资源数据" 1,
        .updateProgress "task_1" 50 "收集服务状态" 2,
        .updateProgress "task_1" 75 "分析告警信息" 3,
        .updateProgress "task_1" 90 "生成巡检报告" 4,
        .completeTask "task_1" "reports/r.html" 5]) "task_1" :=
  ⟨by decide, progress_monotone_of_safe freshTM _ "task_1" (by decide)⟩
